import Mathlib

/-!
Shallow embedding of the `oofs` error-handling library (runtime crate
`oofs` and the index-assignment logic of the derive crate `oofs_derive`),
together with proofs about its specified behaviour.

Rust types are embedded as follows: `TypeId` keys become `Nat`,
`HashSet<TypeId>` becomes a duplicate-free `List Nat` manipulated with
`List.insert`, `String` renderings stay `String`, `Result<T, E>` becomes
`Except E T`, `Option<T>` becomes `Option T`, closures become Lean
functions, and `Box<dyn Error>` (a type-erased error that may or may not
be an `Oof`) becomes the inductive `DynError` below.
-/

namespace Oofs

/-- Call-site location (file, line, column); mirrors `struct Location` in
`oofs/src/context.rs`. -/
structure Location where
  file : String
  line : Nat
  column : Nat
deriving DecidableEq

/-- Mirrors `enum RefType` in `oofs/src/context.rs`. -/
inductive RefType where
  | Ref
  | RefMut
  | Owned
deriving DecidableEq

/-- Mirrors `impl Display for RefType` in `oofs/src/context.rs`. -/
def RefType.render : RefType → String
  | .Ref => "&"
  | .RefMut => ""
  | .Owned => ""

/-- Runtime argument description; mirrors `struct Arg` in
`oofs/src/context.rs`: a name, a reference kind, a static type label and
an optional eagerly-computed debug rendering. -/
structure OofArg where
  name : String
  ref_ty : RefType
  ty : String
  display : Option String
deriving DecidableEq

/-- Non-alternate `Display` of an `Arg` (`oofs/src/context.rs`): just
`$name`. -/
def OofArg.render (a : OofArg) : String := "$" ++ a.name

/-- Alternate `Display` of an `Arg` (`oofs/src/context.rs`):
`$name: &Type = value`, the value part only when a debug rendering was
captured. -/
def OofArg.renderAlt (a : OofArg) : String :=
  "$" ++ a.name ++ ": " ++ a.ref_ty.render ++ a.ty ++
    (match a.display with
     | Option.some d => " = " ++ d
     | Option.none => "")

/-- Mirrors `struct Method` in `oofs/src/context.rs`: a method step of the
flattened chain. -/
structure OofMethod where
  is_async : Bool
  name : String
  args : List OofArg
deriving DecidableEq

/-- Mirrors `impl Display for Method` in `oofs/src/context.rs`:
`name(arg, arg, ...)` followed by `.await` when the step is async. -/
def OofMethod.render (m : OofMethod) : String :=
  m.name ++ "(" ++ String.intercalate ", " (m.args.map OofArg.render) ++ ")" ++
    (if m.is_async then ".await" else "")

/-- Mirrors `struct Ident` in `oofs/src/context.rs`. -/
structure OofIdent where
  name : String
  is_async : Bool
deriving DecidableEq

/-- Mirrors `impl Display for Ident` in `oofs/src/context.rs`. -/
def OofIdent.render (i : OofIdent) : String :=
  i.name ++ (if i.is_async then ".await" else "")

/-- Mirrors `enum Receiver` in `oofs/src/context.rs`. -/
inductive OofReceiver where
  | ident (i : OofIdent)
  | method (m : OofMethod)
  | arg (a : OofArg)
deriving DecidableEq

/-- Mirrors `impl Display for Receiver` in `oofs/src/context.rs`. -/
def OofReceiver.render : OofReceiver → String
  | .ident i => i.render
  | .method m => m.render
  | .arg a => a.render

/-- Mirrors `Receiver::args_exists` in `oofs/src/context.rs`. -/
def OofReceiver.args_exists : OofReceiver → Bool
  | .arg _ => true
  | .method m => !m.args.isEmpty
  | .ident _ => false

/-- The arguments a `Receiver` contributes to the Parameters block, in the
order `Receiver::fmt_args` (`oofs/src/context.rs`) writes them. -/
def OofReceiver.fmt_args_list : OofReceiver → List OofArg
  | .arg a => [a]
  | .method m => m.args
  | .ident _ => []

/-- The generated structured context; mirrors `struct Context` in
`oofs/src/context.rs` (named `OofGeneratedContext` at its use sites in
`oofs/src/builder.rs`): an option-return marker, the receiver, and the
flattened method chain. -/
structure OofGeneratedContext where
  returns_option : Bool
  receiver : OofReceiver
  chain : List OofMethod
deriving DecidableEq

/-- Mirrors `Context::new` in `oofs/src/context.rs`: the marker starts out
false and the chain empty. -/
def OofGeneratedContext.new (receiver : OofReceiver) : OofGeneratedContext :=
  { returns_option := false, receiver := receiver, chain := [] }

/-- Mirrors `Context::add_method` in `oofs/src/context.rs` (chaining form
used by the code the attribute generates, which appends one method step). -/
def OofGeneratedContext.with_method (c : OofGeneratedContext) (m : OofMethod) :
    OofGeneratedContext :=
  { c with chain := c.chain ++ [m] }

/-- Mirrors `Context::returns_option` in `oofs/src/context.rs`: sets the
option-return marker. -/
def OofGeneratedContext.set_returns_option (c : OofGeneratedContext) :
    OofGeneratedContext :=
  { c with returns_option := true }

/-- Non-alternate `Display` of the generated context
(`oofs/src/context.rs`, `impl Display for Context`): the receiver, then
each method step as `.step`, then the suffix, which is
either the option-return wording or the failure wording depending on the
`returns_option` marker. -/
def OofGeneratedContext.render (c : OofGeneratedContext) : String :=
  c.receiver.render ++
    String.join (c.chain.map (fun m => "." ++ m.render)) ++
    (if c.returns_option then " returned `None`" else " failed")

/-- The arguments of the Parameters block in the order
`Context::fmt_args` (`oofs/src/context.rs`) writes them: the receiver's
arguments first, then every method's arguments in chain order. -/
def OofGeneratedContext.fmt_args_list (c : OofGeneratedContext) : List OofArg :=
  c.receiver.fmt_args_list ++ (c.chain.map OofMethod.args).flatten

/-- Modelled from the spec: the `Context` enum that `oofs/src/builder.rs`
and `oofs/src/lib.rs` consume (`Context::default`, `Context::is_none`,
`Context::Custom`, `Context::Generated`, `From<OofGeneratedContext>`) is
absent from the sources; only its users and the payload of its
`Generated` variant are present. Spec section 3: "Context: one of
Generated(structured chain description), Custom(free-text message),
None." -/
inductive OofContext where
  | noContext
  | generated (c : OofGeneratedContext)
  | custom (m : String)
deriving DecidableEq

/-- Modelled from the spec: `Context::is_none`, true exactly on the unset
variant (the fresh builder's default). -/
def OofContext.is_none : OofContext → Bool
  | .noContext => true
  | .generated _ => false
  | .custom _ => false

/-- Rendering dispatch of the context enum: the generated variant renders
through `OofGeneratedContext.render`, the custom variant is its message,
the unset variant contributes nothing. -/
def OofContext.render : OofContext → String
  | .noContext => ""
  | .generated c => c.render
  | .custom m => m

mutual

/-- A type-erased boxed error (`Box<dyn Error>`): either an `Oof`
aggregate (context, tag set, attachments, location, optional source) or a
foreign error with a message and an optional source of its own. -/
inductive DynError where
  | oofErr (context : OofContext) (tags : List Nat) (attachments : List String)
      (location : Location) (source : ErrOption)
  | foreign (msg : String) (source : ErrOption)

/-- An optional cause (`Option<Box<dyn Error>>`), spelled as its own
inductive so that recursion over the cause chain is structural. -/
inductive ErrOption where
  | noSource
  | someSource (e : DynError)

end

/-- Converts the chain-friendly optional cause to an ordinary `Option`. -/
def ErrOption.toOption : ErrOption → Option DynError
  | .noSource => Option.none
  | .someSource e => Option.some e

/-- Converts an ordinary `Option` cause to the chain-friendly form. -/
def ErrOption.ofOption : Option DynError → ErrOption
  | Option.none => .noSource
  | Option.some e => .someSource e

/-- The `Error::source` of a boxed error: an `Oof` reports its wrapped
source (`impl Error for Oof` in `oofs/src/lib.rs`); a foreign error
reports its own cause. -/
def DynError.sourceOf : DynError → ErrOption
  | .oofErr _ _ _ _ s => s
  | .foreign _ s => s

mutual

/-- The linked cause sequence starting at (and including) a boxed error:
the error, then its source, then that source's source, and so on. This is
the sequence `Chain::new(e)` (`oofs/src/chain.rs`) iterates. -/
def DynError.chainList : DynError → List DynError
  | .oofErr c t a l s => .oofErr c t a l s :: ErrOption.chainListOpt s
  | .foreign m s => .foreign m s :: ErrOption.chainListOpt s

/-- The linked cause sequence starting at an optional boxed error. -/
def ErrOption.chainListOpt : ErrOption → List DynError
  | .noSource => []
  | .someSource e => DynError.chainList e

end

/-- The structured error aggregate; mirrors `struct Oof` in
`oofs/src/lib.rs`: optional type-erased source, context, tag set (a
`HashSet<TypeId>`, embedded as a duplicate-free list of keys),
attachment list, and location. -/
structure Oof where
  source : Option DynError
  context : OofContext
  tags : List Nat
  attachments : List String
  location : Location

/-- An `Oof` viewed as a boxed `dyn Error`. -/
def Oof.toErr (o : Oof) : DynError :=
  .oofErr o.context o.tags o.attachments o.location (ErrOption.ofOption o.source)

/-- The downcast `cause.downcast_ref::<Oof>()` used by the nested tag
queries in `oofs/src/lib.rs`: succeeds exactly on boxed `Oof` values. -/
def DynError.downcastOof : DynError → Option Oof
  | .oofErr c t a l s => Option.some ⟨s.toOption, c, t, a, l⟩
  | .foreign _ _ => Option.none

/-- Mirrors `enum ChainState` in `oofs/src/chain.rs`: the iterator either
still follows the singly-linked source relation (`Linked`) or has
materialized the remaining elements into a buffer (`Buffered`). -/
inductive ChainState where
  | linked (next : Option DynError)
  | buffered (rest : List DynError)

/-- Mirrors `Chain::new` in `oofs/src/chain.rs`. -/
def ChainState.new (head : DynError) : ChainState :=
  .linked (Option.some head)

/-- Mirrors `Chain::next` in `oofs/src/chain.rs`: in the linked state,
yield the current error and advance to its source; in the buffered state,
pop from the front of the buffer. -/
def ChainState.next : ChainState → Option DynError × ChainState
  | .linked Option.none => (Option.none, .linked Option.none)
  | .linked (Option.some e) => (Option.some e, .linked e.sourceOf.toOption)
  | .buffered rest => (rest.head?, .buffered rest.tail)

/-- Mirrors `Chain::next_back` in `oofs/src/chain.rs`: in the linked
state, first materialize the whole remaining chain into a buffer (the
`while let` loop), pop its last element, and switch to the buffered
state; in the buffered state, pop from the back of the buffer. -/
def ChainState.next_back : ChainState → Option DynError × ChainState
  | .linked nxt =>
      let rest := (ErrOption.ofOption nxt).chainListOpt
      (rest.getLast?, .buffered rest.dropLast)
  | .buffered rest => (rest.getLast?, .buffered rest.dropLast)

/-- Mirrors `Chain::len` in `oofs/src/chain.rs`: the linked state counts
the remaining linked chain (the counting loop walks exactly the elements
`chainListOpt` collects); the buffered state reports the buffer length. -/
def ChainState.len : ChainState → Nat
  | .linked nxt => ((ErrOption.ofOption nxt).chainListOpt).length
  | .buffered rest => rest.length

/-- Drains up to `n` elements from the iterator front-first by repeated
`Chain::next`. -/
def ChainState.fwdDrain : Nat → ChainState → List DynError
  | 0, _ => []
  | Nat.succ n, c =>
      match c.next with
      | (Option.none, _) => []
      | (Option.some e, c2) => e :: fwdDrain n c2

/-- Drains up to `n` elements from the iterator back-first by repeated
`Chain::next_back` (the order `Iterator::rev` produces). -/
def ChainState.revDrain : Nat → ChainState → List DynError
  | 0, _ => []
  | Nat.succ n, c =>
      match c.next_back with
      | (Option.none, _) => []
      | (Option.some e, c2) => e :: revDrain n c2

/-- The full forward iteration of `Chain::new(e)`. -/
def DynError.collectFwd (e : DynError) : List DynError :=
  ChainState.fwdDrain (ChainState.new e).len (ChainState.new e)

/-- The full reverse iteration of `Chain::new(e)` (as `.rev()` yields
it). -/
def DynError.collectRev (e : DynError) : List DynError :=
  ChainState.revDrain (ChainState.new e).len (ChainState.new e)

/-- Mirrors `Oof::tagged` in `oofs/src/lib.rs`: membership of the tag key
in the aggregate's own tag set only. -/
def Oof.tagged (o : Oof) (t : Nat) : Bool :=
  o.tags.contains t

/-- Mirrors `Oof::tag` in `oofs/src/lib.rs`: insert the tag key into the
tag set, leaving every other field alone. -/
def Oof.tag (o : Oof) (t : Nat) : Oof :=
  { o with tags := o.tags.insert t }

/-- Mirrors `Oof::tag_if` in `oofs/src/lib.rs`: only when a wrapped
source is present and the predicate approves it is the tag added;
otherwise the aggregate is returned unchanged. -/
def Oof.tag_if (o : Oof) (t : Nat) (f : DynError → Bool) : Oof :=
  match o.source with
  | Option.some s => if f s then o.tag t else o
  | Option.none => o

/-- Mirrors `Oof::attach` in `oofs/src/lib.rs`: push the value's rendered
debug form (here received already rendered) onto the attachment list. -/
def Oof.attach (o : Oof) (s : String) : Oof :=
  { o with attachments := o.attachments ++ [s] }

/-- Mirrors `Oof::attach_lazy` in `oofs/src/lib.rs`: the closure is
called and its result's string form pushed onto the attachment list. -/
def Oof.attach_lazy (o : Oof) (f : Unit → String) : Oof :=
  { o with attachments := o.attachments ++ [f ()] }

/-- The causes of an `Oof`: the sequence `Chain::new(self).skip(1)`
iterates in `Oof::tagged_nested` (`oofs/src/lib.rs`), namely the forward
chain of the aggregate minus the aggregate itself. -/
def Oof.causes (o : Oof) : List DynError :=
  (DynError.chainList o.toErr).drop 1

/-- The cause-scanning loop shared by `Oof::tagged_nested` and
`Oof::tagged_nested_rev` (`oofs/src/lib.rs`): downcast each cause to the
aggregate type, skip causes of other types, and return true at the first
downcast cause whose own tag set holds the key. -/
def taggedLoop (t : Nat) : List DynError → Bool
  | [] => false
  | e :: rest =>
      match e.downcastOof with
      | Option.some o => if o.tagged t then true else taggedLoop t rest
      | Option.none => taggedLoop t rest

/-- Mirrors `Oof::tagged_nested` in `oofs/src/lib.rs`: first the
aggregate's own tag set, then the causes in forward order. -/
def Oof.tagged_nested (o : Oof) (t : Nat) : Bool :=
  if o.tagged t then true
  else taggedLoop t o.causes

/-- Mirrors `Oof::tagged_nested_rev` in `oofs/src/lib.rs`: first the
causes in reverse order (`Chain::new(self).skip(1).rev()`), then the
aggregate's own tag set. -/
def Oof.tagged_nested_rev (o : Oof) (t : Nat) : Bool :=
  if taggedLoop t o.causes.reverse then true
  else if o.tagged t then true
  else false

/-- The sequence of causes `Oof::tagged_nested_rev` scans, in scan
order. -/
def Oof.revVisitOrder (o : Oof) : List DynError :=
  o.causes.reverse

/-- The error builder; mirrors `struct OofBuilder<E>` in
`oofs/src/builder.rs`. -/
structure OofBuilder (E : Type) where
  context : OofContext
  source : Option E
  tags : List Nat
  attachments : List String
  location : Location

/-- Mirrors `OofBuilder::new` in `oofs/src/builder.rs`: default (unset)
context, no source (the default error parameter `Infallible` is the
uninhabited `Empty`), empty tag set and attachments, caller location. -/
def OofBuilder.new (loc : Location) : OofBuilder Empty :=
  { context := .noContext, source := Option.none, tags := [],
    attachments := [], location := loc }

/-- Mirrors `OofBuilder::with_source` in `oofs/src/builder.rs`: keep
context, tags, attachments and location, set the source. -/
def OofBuilder.with_source {E : Type} (b : OofBuilder Empty) (s : E) :
    OofBuilder E :=
  { context := b.context, source := Option.some s, tags := b.tags,
    attachments := b.attachments, location := b.location }

/-- Mirrors `OofBuilder::with_generated` in `oofs/src/builder.rs`. -/
def OofBuilder.with_generated {E : Type} (b : OofBuilder E)
    (c : OofGeneratedContext) : OofBuilder E :=
  { b with context := .generated c }

/-- Mirrors `OofBuilder::with_custom` in `oofs/src/builder.rs`. -/
def OofBuilder.with_custom {E : Type} (b : OofBuilder E) (m : String) :
    OofBuilder E :=
  { b with context := .custom m }

/-- Mirrors `OofBuilder::with_tag` in `oofs/src/builder.rs` (which calls
`Tags::tag`, a `HashSet` insertion, in `oofs/src/tags.rs`). -/
def OofBuilder.with_tag {E : Type} (b : OofBuilder E) (t : Nat) :
    OofBuilder E :=
  { b with tags := b.tags.insert t }

/-- Mirrors `OofBuilder::with_tag_if` in `oofs/src/builder.rs`: the
predicate is consulted only when a source is present. -/
def OofBuilder.with_tag_if {E : Type} (b : OofBuilder E) (t : Nat)
    (f : E → Bool) : OofBuilder E :=
  match b.source with
  | Option.some s => if f s then b.with_tag t else b
  | Option.none => b

/-- Mirrors `OofBuilder::with_attachment` in `oofs/src/builder.rs` (the
debug rendering is received already formatted). -/
def OofBuilder.with_attachment {E : Type} (b : OofBuilder E) (s : String) :
    OofBuilder E :=
  { b with attachments := b.attachments ++ [s] }

/-- Mirrors `OofBuilder::with_attachment_lazy` in `oofs/src/builder.rs`:
the closure is called and its result's string form pushed. -/
def OofBuilder.with_attachment_lazy {E : Type} (b : OofBuilder E)
    (f : Unit → String) : OofBuilder E :=
  { b with attachments := b.attachments ++ [f ()] }

/-- Mirrors `OofBuilder::build` in `oofs/src/builder.rs`; `toErr` is the
`Into<Box<dyn Error>>` boxing of the source error type. -/
def OofBuilder.build {E : Type} (toErr : E → DynError) (b : OofBuilder E) :
    Oof :=
  { source := b.source.map toErr, context := b.context, tags := b.tags,
    attachments := b.attachments, location := b.location }

/-- Mirrors `OofGenerator::build_oof` for `Result<T, OofBuilder<E>>`
(`oofs/src/builder.rs` lines 167-183): on failure the generated-context
closure is evaluated and attached only when the builder's context is
still unset. -/
def buildOofBuilder {E T : Type} (toErr : E → DynError)
    (this : Except (OofBuilder E) T) (f : Unit → OofGeneratedContext) :
    Except Oof T :=
  match this with
  | .ok t => .ok t
  | .error b =>
      let b2 := if b.context.is_none then b.with_generated (f ()) else b
      .error (b2.build toErr)

/-- Mirrors `OofGenerator::build_oof` for `Result<T, E>`
(`oofs/src/builder.rs` lines 185-204): wrap the foreign error in a fresh
builder, then attach the generated context (the fresh context is always
unset). -/
def buildOofResult {E T : Type} (toErr : E → DynError) (loc : Location)
    (this : Except E T) (f : Unit → OofGeneratedContext) : Except Oof T :=
  match this with
  | .ok t => .ok t
  | .error e =>
      let b := (OofBuilder.new loc).with_source e
      let b2 := if b.context.is_none then b.with_generated (f ()) else b
      .error (b2.build toErr)

/-- Mirrors `OofGenerator::build_oof` for `Option<T>`
(`oofs/src/builder.rs` lines 206-222): a missing value builds a fresh
sourceless builder and attaches the generated context exactly as the
closure produced it. -/
def buildOofOption {T : Type} (loc : Location) (this : Option T)
    (f : Unit → OofGeneratedContext) : Except Oof T :=
  match this with
  | Option.some t => .ok t
  | Option.none =>
      let b := OofBuilder.new loc
      let b2 := if b.context.is_none then b.with_generated (f ()) else b
      .error (b2.build Empty.elim)

/-- Mirrors `OofExt::_tag_if` for `Option<T>` (`oofs/src/ext.rs` lines
215-221): the absent value becomes a fresh builder run through
`with_tag_if`; the predicate's error parameter is the uninhabited
`Infallible`. -/
def optionTagIf {T : Type} (loc : Location) (t : Nat) (f : Empty → Bool) :
    Option T → Except (OofBuilder Empty) T
  | Option.some x => .ok x
  | Option.none => .error ((OofBuilder.new loc).with_tag_if t f)

/-- Mirrors `OofExt::_attach_lazy` for `Result<T, E>` (`oofs/src/ext.rs`):
on success the value passes through untouched; on failure a fresh builder
wraps the error and the lazy attachment is rendered and pushed. -/
def resultAttachLazy {E T : Type} (loc : Location) (f : Unit → String) :
    Except E T → Except (OofBuilder E) T
  | .ok t => .ok t
  | .error e => .error (((OofBuilder.new loc).with_source e).with_attachment_lazy f)

/-- Mirrors the aggregate-index assignment of `Arg::new` in
`oofs_derive/src/implementation/context.rs` lines 636-678: the argument
takes the counter's current value as its index and the counter is bumped
by one. Returns the assigned index and the new counter. -/
def argNew (aggIndex : Nat) : Nat × Nat :=
  (aggIndex, aggIndex + 1)

/-- Mirrors `Arg::from_punctuated` in
`oofs_derive/src/implementation/context.rs`: one `Arg::new` per argument
expression, left to right, threading the same counter. Returns the
assigned indices in argument order and the new counter. -/
def argsFromPunctuated : Nat → Nat → List Nat × Nat
  | agg, 0 => ([], agg)
  | agg, Nat.succ n =>
      let (i, agg2) := argNew agg
      let (rest, agg3) := argsFromPunctuated agg2 n
      (i :: rest, agg3)

/-- A method step as the derive-side decomposer sees it: whether its name
starts with the reserved meta marker, and how many argument expressions
it has (`struct Method` in `oofs_derive/src/implementation/context.rs`). -/
structure DeriveMethod where
  is_meta : Bool
  numArgs : Nat

/-- Mirrors `Method::new` in `oofs_derive/src/implementation/context.rs`:
a meta step captures no arguments (and so consumes no indices); a
renderable step captures its arguments through `Arg::from_punctuated`. -/
def methodNew (agg : Nat) (m : DeriveMethod) : List Nat × Nat :=
  if m.is_meta then ([], agg) else argsFromPunctuated agg m.numArgs

/-- The receiver shapes the decomposer classifies
(`oofs_derive/src/implementation/context.rs`, `enum Receiver` and
`ContextInner::{ident, field, call, arg}`). -/
inductive DeriveReceiver where
  | identRecv
  | fieldRecv
  | callRecv (numArgs : Nat)
  | argRecv

/-- Mirrors `ContextInner::{ident, field, call, arg}`: identifier and
field receivers start the counter at zero with no captured arguments; a
call receiver captures its own arguments from counter zero; an
arbitrary-expression receiver is wrapped as a single argument consuming
one index. Returns the receiver's indices and the counter handed to the
chain. -/
def receiverNew : DeriveReceiver → List Nat × Nat
  | .identRecv => ([], 0)
  | .fieldRecv => ([], 0)
  | .callRecv n => argsFromPunctuated 0 n
  | .argRecv =>
      let (i, c) := argNew 0
      ([i], c)

/-- Mirrors the chain flattening of `Context::_method_call`
(`oofs_derive/src/implementation/context.rs`): the receiver is processed
first, then each method step in source order, all threading the one
shared counter. Returns each step's indices (in step order) and the final
counter. -/
def flattenChain : Nat → List DeriveMethod → List (List Nat) × Nat
  | agg, [] => ([], agg)
  | agg, m :: rest =>
      let (idxs, agg2) := methodNew agg m
      let (restIdxs, agg3) := flattenChain agg2 rest
      (idxs :: restIdxs, agg3)

/-- The aggregate indices of the whole flattened chain in the order the
rendered Parameters section enumerates them (`Context::fmt_args` in
`oofs/src/context.rs`: receiver arguments first, then each method's
arguments in chain order). -/
def renderedIndices (r : DeriveReceiver) (chain : List DeriveMethod) :
    List Nat :=
  (receiverNew r).1 ++ ((flattenChain (receiverNew r).2 chain).1).flatten

/-- The final value of the shared counter after flattening: the number of
argument indices assigned across the whole chain. -/
def totalIndices (r : DeriveReceiver) (chain : List DeriveMethod) : Nat :=
  (flattenChain (receiverNew r).2 chain).2

/-- The total number of argument indices a list of method steps consumes:
meta steps consume none, renderable steps one per argument. -/
def sumArgs (ms : List DeriveMethod) : Nat :=
  (ms.map (fun m => if m.is_meta then 0 else m.numArgs)).sum

/-- The tag set carried by a boxed error (empty for foreign errors); used
to fingerprint scan orders in the traversal theorems. -/
def DynError.tagKeys : DynError → List Nat
  | .oofErr _ t _ _ _ => t
  | .foreign _ _ => []

/-- The predicate the nested tag queries apply to each cause: downcast to
the aggregate type and check its own tag set, treating causes of other
types as non-matches (skipped). -/
def matchesTag (t : Nat) (e : DynError) : Bool :=
  ((e.downcastOof).map (fun x => x.tagged t)).getD false

/-- A fixed sample call-site location for the concrete scenarios. -/
def loc0 : Location := ⟨"basic.rs", 9, 13⟩

/-- A sample already-built custom error with no attachments. -/
def oof0 : Oof :=
  { source := Option.none, context := .custom "custom error", tags := [],
    attachments := [], location := loc0 }

/-- The generated context the attribute-generated closure builds for a
failing call `x.foo()`: `OofGeneratedContext::new` on the receiver, then
one `with_method` per step (`oofs_derive/src/implementation/context.rs`
lines 209-217); nothing in that code touches the option-return marker. -/
def demoGen : OofGeneratedContext :=
  (OofGeneratedContext.new (.ident ⟨"x", false⟩)).with_method
    ⟨false, "foo", []⟩

/-- Depth-3 nesting, innermost aggregate only carrying tag 7: the
innermost aggregate. -/
def inner3 : Oof :=
  { source := Option.none, context := .custom "inner", tags := [7],
    attachments := [], location := loc0 }

/-- Depth-3 nesting: the middle aggregate wrapping `inner3`. -/
def mid3 : Oof :=
  { source := Option.some inner3.toErr, context := .custom "mid", tags := [],
    attachments := [], location := loc0 }

/-- Depth-3 nesting: the outermost aggregate wrapping `mid3`. -/
def outer3 : Oof :=
  { source := Option.some mid3.toErr, context := .custom "outer", tags := [],
    attachments := [], location := loc0 }

/-- A chain with a foreign (non-aggregate) error interposed between the
outer aggregate and a tagged inner aggregate. -/
def outerSkip : Oof :=
  { source := Option.some (.foreign "io error" (.someSource inner3.toErr)),
    context := .custom "outer", tags := [], attachments := [],
    location := loc0 }

/-- Reverse-scan scenario: the root cause, carrying tag 3. -/
def rootCause : Oof :=
  { source := Option.none, context := .custom "root", tags := [3],
    attachments := [], location := loc0 }

/-- Reverse-scan scenario: the middle cause, carrying tag 2. -/
def midCause : Oof :=
  { source := Option.some rootCause.toErr, context := .custom "middle",
    tags := [2], attachments := [], location := loc0 }

/-- Reverse-scan scenario: the immediate (outermost) cause, carrying
tag 1. -/
def immCause : Oof :=
  { source := Option.some midCause.toErr, context := .custom "immediate",
    tags := [1], attachments := [], location := loc0 }

/-- Reverse-scan scenario: the top aggregate whose causes are, in forward
order, `immCause`, `midCause`, `rootCause`. -/
def topR : Oof :=
  { source := Option.some immCause.toErr, context := .custom "top",
    tags := [], attachments := [], location := loc0 }

/-- Unfolding lemma: the chain of a boxed error is the error followed by
the chain of its source. -/
theorem DynError.chainList_def (e : DynError) :
    e.chainList = e :: e.sourceOf.chainListOpt := by
  cases e <;> rfl

/-- Round trip between the two spellings of an optional cause. -/
theorem ErrOption.ofOption_toOption (s : ErrOption) :
    ErrOption.ofOption s.toOption = s := by
  cases s <;> rfl

/-- Draining a linked chain front-first with enough fuel yields exactly
the linked cause sequence. -/
theorem ChainState.fwdDrain_linked :
    ∀ (n : Nat) (s : ErrOption), s.chainListOpt.length ≤ n →
      ChainState.fwdDrain n (.linked s.toOption) = s.chainListOpt := by
  intro n
  induction n with
  | zero =>
      intro s h
      cases s with
      | noSource => rfl
      | someSource e =>
          rw [ErrOption.chainListOpt, DynError.chainList_def] at h
          simp at h
  | succ n ih =>
      intro s h
      cases s with
      | noSource => rfl
      | someSource e =>
          rw [ErrOption.chainListOpt, DynError.chainList_def] at h ⊢
          simp only [List.length_cons, Nat.add_le_add_iff_right] at h
          show ChainState.fwdDrain (n + 1) (.linked (Option.some e)) = _
          rw [ChainState.fwdDrain]
          simp only [ChainState.next]
          rw [ih e.sourceOf h]

/-- Draining a buffered chain back-first with enough fuel reverses the
buffer. -/
theorem ChainState.revDrain_buffered :
    ∀ (n : Nat) (l : List DynError), l.length ≤ n →
      ChainState.revDrain n (.buffered l) = l.reverse := by
  intro n
  induction n with
  | zero =>
      intro l h
      have : l = [] := List.length_eq_zero.mp (Nat.le_zero.mp h)
      subst this
      rfl
  | succ n ih =>
      intro l h
      by_cases hl : l = []
      · subst hl; rfl
      · rw [ChainState.revDrain]
        simp only [ChainState.next_back]
        rw [List.getLast?_eq_getLast l hl]
        show l.getLast hl :: ChainState.revDrain n (.buffered l.dropLast) = _
        rw [ih l.dropLast (by
          rw [List.length_dropLast]
          omega)]
        conv_rhs => rw [← List.dropLast_append_getLast hl]
        rw [List.reverse_append]
        rfl

/-- Draining a linked chain back-first with enough fuel reverses the
linked cause sequence. -/
theorem ChainState.revDrain_linked (n : Nat) (nxt : Option DynError)
    (h : ((ErrOption.ofOption nxt).chainListOpt).length ≤ n + 1) :
    ChainState.revDrain (n + 1) (.linked nxt) =
      ((ErrOption.ofOption nxt).chainListOpt).reverse := by
  rw [ChainState.revDrain]
  simp only [ChainState.next_back]
  by_cases hr : (ErrOption.ofOption nxt).chainListOpt = []
  · rw [hr]; rfl
  · rw [List.getLast?_eq_getLast _ hr]
    show _ :: ChainState.revDrain n
        (.buffered ((ErrOption.ofOption nxt).chainListOpt).dropLast) = _
    rw [ChainState.revDrain_buffered n _ (by
      rw [List.length_dropLast]
      omega)]
    conv_rhs => rw [← List.dropLast_append_getLast hr]
    rw [List.reverse_append]
    rfl

/-- Full forward iteration of `Chain::new(e)` yields the linked cause
sequence. -/
theorem DynError.collectFwd_eq (e : DynError) :
    e.collectFwd = e.chainList := by
  show ChainState.fwdDrain _ (.linked (Option.some e)) = _
  have : (Option.some e) = (ErrOption.someSource e).toOption := rfl
  rw [this, ChainState.fwdDrain_linked]
  · rfl
  · show (ErrOption.someSource e).chainListOpt.length ≤ (ChainState.new e).len
    exact Nat.le.refl

/-- Full reverse iteration of `Chain::new(e)` yields the reversed linked
cause sequence. -/
theorem DynError.collectRev_eq (e : DynError) :
    e.collectRev = e.chainList.reverse := by
  show ChainState.revDrain (ChainState.new e).len (.linked (Option.some e)) = _
  have hlen : (ChainState.new e).len = e.sourceOf.chainListOpt.length + 1 := by
    show ((ErrOption.ofOption (Option.some e)).chainListOpt).length = _
    show (DynError.chainList e).length = _
    rw [DynError.chainList_def]
    rfl
  rw [hlen, ChainState.revDrain_linked]
  · show (DynError.chainList e).reverse = _
    rfl
  · show (DynError.chainList e).length ≤ _
    rw [DynError.chainList_def]
    simp

/-- The causes of an aggregate are the linked chain of its wrapped
source. -/
theorem Oof.causes_eq (o : Oof) :
    o.causes = (ErrOption.ofOption o.source).chainListOpt := by
  show (DynError.chainList o.toErr).drop 1 = _
  rw [DynError.chainList_def]
  rfl

/-- The cause-scanning loop agrees with an existential scan: it returns
true exactly when some element of the list downcasts to the aggregate
type and carries the tag. -/
theorem taggedLoop_eq_any (t : Nat) :
    ∀ l : List DynError, taggedLoop t l = l.any (matchesTag t) := by
  intro l
  induction l with
  | nil => rfl
  | cons e rest ih =>
      rw [taggedLoop, List.any_cons, ← ih]
      cases he : e.downcastOof with
      | none => simp [matchesTag, he]
      | some o =>
          by_cases ho : o.tagged t <;> simp [matchesTag, he, ho]

/-- Each argument of a punctuated list takes the next counter value: from
counter `agg`, `n` arguments receive exactly the indices
`agg, agg+1, ..., agg+n-1`, and the counter ends at `agg + n`. -/
theorem argsFromPunctuated_eq :
    ∀ (n agg : Nat), argsFromPunctuated agg n = (List.range' agg n, agg + n) := by
  intro n
  induction n with
  | zero => intro agg; rfl
  | succ n ih =>
      intro agg
      rw [argsFromPunctuated]
      dsimp only [argNew]
      rw [ih (agg + 1)]
      dsimp only
      rw [List.range'_succ]
      have h2 : agg + 1 + n = agg + (n + 1) := by omega
      rw [h2]

/-- Flattening a method chain from counter `agg` assigns, across all
steps joined in order, exactly the indices `agg, ..., agg + sumArgs - 1`,
ending with the counter at `agg + sumArgs`. -/
theorem flattenChain_eq :
    ∀ (ms : List DeriveMethod) (agg : Nat),
      ((flattenChain agg ms).1).flatten = List.range' agg (sumArgs ms) ∧
      (flattenChain agg ms).2 = agg + sumArgs ms := by
  intro ms
  induction ms with
  | nil => intro agg; exact ⟨rfl, rfl⟩
  | cons m rest ih =>
      intro agg
      rw [flattenChain]
      by_cases hm : m.is_meta
      · have hmn : methodNew agg m = ([], agg) := by
          rw [methodNew, if_pos hm]
        rw [hmn]
        have hsum : sumArgs (m :: rest) = sumArgs rest := by
          simp [sumArgs, hm]
        rw [hsum]
        refine ⟨?_, (ih agg).2⟩
        show ([] : List Nat) ++ ((flattenChain agg rest).1).flatten = _
        rw [List.nil_append, (ih agg).1]
      · have hmn : methodNew agg m = (List.range' agg m.numArgs, agg + m.numArgs) := by
          rw [methodNew, if_neg hm, argsFromPunctuated_eq]
        rw [hmn]
        have hsum : sumArgs (m :: rest) = m.numArgs + sumArgs rest := by
          simp [sumArgs, hm]
        rw [hsum]
        constructor
        · show List.range' agg m.numArgs ++
            ((flattenChain (agg + m.numArgs) rest).1).flatten = _
          rw [(ih (agg + m.numArgs)).1, List.range'_append_1, Nat.add_comm]
        · show (flattenChain (agg + m.numArgs) rest).2 = _
          rw [(ih (agg + m.numArgs)).2, Nat.add_assoc]

/-- The receiver's indices start the shared counter from zero: they are
exactly `0, ..., k-1` where `k` is the counter value handed onward. -/
theorem receiverNew_eq (r : DeriveReceiver) :
    (receiverNew r).1 = List.range' 0 (receiverNew r).2 := by
  cases r with
  | identRecv => rfl
  | fieldRecv => rfl
  | callRecv n =>
      rw [receiverNew, argsFromPunctuated_eq]
      simp
  | argRecv => rfl

/-- C1: for a failing call whose result already carries a builder with a
context set, `build_oof` does not overwrite that context, and the
generated-context closure is not evaluated (the outcome is the same for
every closure); only when the builder's context is still unset is the
closure's context attached. Context construction therefore happens at
most once per failing call and the innermost description is preserved. -/
theorem build_oof_context_write_once {E T : Type} (toErr : E → DynError)
    (b : OofBuilder E) (f g : Unit → OofGeneratedContext)
    (h : b.context.is_none = false) :
    buildOofBuilder (T := T) toErr (.error b) f = .error (b.build toErr) ∧
    buildOofBuilder (T := T) toErr (.error b) f =
      buildOofBuilder (T := T) toErr (.error b) g ∧
    (∀ b2 : OofBuilder E, b2.context.is_none = true →
      buildOofBuilder (T := T) toErr (.error b2) f =
        .error ((b2.with_generated (f ())).build toErr)) := by
  refine ⟨?_, ?_, ?_⟩
  · simp [buildOofBuilder, h]
  · simp [buildOofBuilder, h]
  · intro b2 h2
    simp [buildOofBuilder, h2]

/-- Witness for C1: a builder whose context was set by an inner layer
passes through `build_oof` unchanged. -/
theorem build_oof_context_write_once_witness :
    buildOofBuilder (T := Nat) (fun _ : Unit => DynError.foreign "boxed" .noSource)
        (.error { context := .custom "inner context", source := Option.some (),
                  tags := [], attachments := [], location := loc0 })
        (fun _ => demoGen) =
      .error (OofBuilder.build (fun _ : Unit => DynError.foreign "boxed" .noSource)
        { context := .custom "inner context", source := Option.some (),
          tags := [], attachments := [], location := loc0 }) :=
  (build_oof_context_write_once (fun _ : Unit => DynError.foreign "boxed" .noSource)
    { context := .custom "inner context", source := Option.some (),
      tags := [], attachments := [], location := loc0 }
    (fun _ => demoGen)
    (fun _ => OofGeneratedContext.new (.ident ⟨"y", false⟩)) rfl).1

/-- C2: tagging a fresh builder with key `t` and building yields an
aggregate tagged with `t` and with no other key: membership is exact on
the classification key. -/
theorem with_tag_build_tagged (loc : Location) (t u : Nat) (h : u ≠ t) :
    (((OofBuilder.new loc).with_tag t).build Empty.elim).tagged t = true ∧
    (((OofBuilder.new loc).with_tag t).build Empty.elim).tagged u = false := by
  constructor
  · simp [OofBuilder.new, OofBuilder.with_tag, OofBuilder.build, Oof.tagged,
      List.insert]
  · simp [OofBuilder.new, OofBuilder.with_tag, OofBuilder.build, Oof.tagged,
      List.insert, h]

/-- Witness for C2: tag key 0 added, key 1 absent. -/
theorem with_tag_build_tagged_witness :
    (((OofBuilder.new loc0).with_tag 0).build Empty.elim).tagged 0 = true ∧
    (((OofBuilder.new loc0).with_tag 0).build Empty.elim).tagged 1 = false :=
  with_tag_build_tagged loc0 0 1 (by decide)

/-- C8: on an already-built aggregate, `tag` only inserts the key into
the tag set, and `attach` and `attach_lazy` only append one rendered
entry to the end of the attachment list; source, context and location
are untouched by all three. -/
theorem meta_ops_frame (o : Oof) (t : Nat) (s : String) (f : Unit → String) :
    ((o.tag t).source = o.source ∧ (o.tag t).context = o.context ∧
     (o.tag t).location = o.location ∧ (o.tag t).attachments = o.attachments ∧
     (o.tag t).tags = o.tags.insert t) ∧
    ((o.attach s).source = o.source ∧ (o.attach s).context = o.context ∧
     (o.attach s).location = o.location ∧ (o.attach s).tags = o.tags ∧
     (o.attach s).attachments = o.attachments ++ [s]) ∧
    ((o.attach_lazy f).source = o.source ∧ (o.attach_lazy f).context = o.context ∧
     (o.attach_lazy f).location = o.location ∧ (o.attach_lazy f).tags = o.tags ∧
     (o.attach_lazy f).attachments = o.attachments ++ [f ()]) :=
  ⟨⟨rfl, rfl, rfl, rfl, rfl⟩, ⟨rfl, rfl, rfl, rfl, rfl⟩,
    ⟨rfl, rfl, rfl, rfl, rfl⟩⟩

/-- Counterexample for C9: attaching alone already performs the
rendering. Right after `attach_lazy`, with no display having happened,
the attachment list holds the closure's rendered string, and the stored
state depends on the closure's output, so the closure was invoked at
attach time, not at display time. -/
theorem attach_lazy_renders_at_attach_time :
    (oof0.attach_lazy (fun _ => "rendered a")).attachments = ["rendered a"] ∧
    (oof0.attach_lazy (fun _ => "rendered b")).attachments = ["rendered b"] ∧
    (oof0.attach_lazy (fun _ => "rendered a")).attachments ≠
      (oof0.attach_lazy (fun _ => "rendered b")).attachments :=
  ⟨rfl, rfl, by decide⟩

/-- C9 as amended: the laziness of `_attach_lazy` is relative to the
success path, not to display. On a success value the closure is never
rendered (the value passes through untouched); on the failure path, and
on an already-built error, the closure is rendered immediately at attach
time and its string appended. -/
theorem attach_lazy_failure_path_only {E T : Type} (loc : Location) (t : T)
    (e : E) (f : Unit → String) (o : Oof) :
    resultAttachLazy (E := E) loc f (.ok t) = .ok t ∧
    resultAttachLazy (E := E) (T := T) loc f (.error e) =
      .error { context := .noContext, source := Option.some e, tags := [],
               attachments := [f ()], location := loc } ∧
    (o.attach_lazy f).attachments = o.attachments ++ [f ()] :=
  ⟨rfl, rfl, rfl⟩

/-- C10: with no wrapped source, `tag_if` and `with_tag_if` return the
value unchanged and never consult the predicate (the outcome is the same
for every predicate); the absence-derived builder produced by the
`Option` extension acquires no tag through `_tag_if` for any predicate. -/
theorem tag_if_requires_source (o : Oof) (t : Nat) (f g : DynError → Bool)
    (h : o.source = Option.none) :
    o.tag_if t f = o ∧ o.tag_if t f = o.tag_if t g ∧
    (∀ (b : OofBuilder Empty) (p q : Empty → Bool),
      b.with_tag_if t p = b ∧ b.with_tag_if t p = b.with_tag_if t q) ∧
    (∀ (T : Type) (loc : Location) (p : Empty → Bool),
      optionTagIf (T := T) loc t p Option.none =
        .error (OofBuilder.new loc)) := by
  have hb : ∀ (b : OofBuilder Empty) (p : Empty → Bool),
      b.with_tag_if t p = b := by
    intro b p
    rw [OofBuilder.with_tag_if]
    cases hs : b.source with
    | none => rfl
    | some e => exact e.elim
  refine ⟨?_, ?_, ?_, ?_⟩
  · rw [Oof.tag_if, h]
  · rw [Oof.tag_if, h, Oof.tag_if, h]
  · intro b p q
    exact ⟨hb b p, (hb b p).trans (hb b q).symm⟩
  · intro T loc p
    rw [optionTagIf, hb]

/-- Witness for C10: an aggregate with no source is unchanged by
`tag_if` with an always-true predicate. -/
theorem tag_if_requires_source_witness :
    oof0.tag_if 5 (fun _ => true) = oof0 :=
  (tag_if_requires_source oof0 5 (fun _ => true) (fun _ => false) rfl).1

/-- C3: `tagged_nested` checks the aggregate's own tags, then walks every
cause in forward order, skipping causes that do not downcast to the
aggregate's own type, true at the first match. On the depth-3 nesting
where only the innermost aggregate carries tag 7, the outermost
aggregate's nested query is true while its own-level query is false; a
foreign error interposed in the chain is skipped, not a failure. -/
theorem tagged_nested_spec :
    (∀ (o : Oof) (t : Nat),
      o.tagged_nested t = (o.tagged t || o.causes.any (matchesTag t))) ∧
    outer3.tagged_nested 7 = true ∧
    outer3.tagged 7 = false ∧
    outerSkip.tagged_nested 7 = true := by
  refine ⟨?_, by decide, by decide, by decide⟩
  intro o t
  rw [Oof.tagged_nested, taggedLoop_eq_any]
  cases h : o.tagged t <;> simp [h]

/-- Counterexample for C4: the scan order of `tagged_nested_rev` is
root-cause-first, not outermost-first. For the chain whose causes carry
tags 1 (immediate, outermost cause), 2 (middle) and 3 (root), the
reverse scan visits the tag-3 root cause first and the tag-1 immediate
cause last, so the scan order differs from the outermost-first
(forward) cause order the claim describes. -/
theorem tagged_nested_rev_order_counterexample :
    topR.revVisitOrder.map DynError.tagKeys = [[3], [2], [1]] ∧
    topR.causes.map DynError.tagKeys = [[1], [2], [3]] ∧
    topR.revVisitOrder.head? = Option.some rootCause.toErr ∧
    rootCause.toErr.sourceOf = ErrOption.noSource ∧
    topR.revVisitOrder.map DynError.tagKeys ≠
      topR.causes.map DynError.tagKeys :=
  ⟨rfl, rfl, rfl, rfl, by decide⟩

/-- C4 as amended: `tagged_nested_rev` walks the causes in reverse
(innermost-first among causes, i.e., closest-to-root-cause first and the
immediate cause last), short-circuits returning true on the first cause
of the aggregate's own type carrying the tag found in that order, and
checks the aggregate's own tag set last. -/
theorem tagged_nested_rev_spec :
    (∀ (o : Oof) (t : Nat),
      o.tagged_nested_rev t =
        (o.causes.reverse.any (matchesTag t) || o.tagged t)) ∧
    (∀ o : Oof, o.revVisitOrder = o.causes.reverse) ∧
    topR.revVisitOrder.map DynError.tagKeys = [[3], [2], [1]] ∧
    topR.tagged_nested_rev 3 = true ∧
    topR.tagged_nested_rev 99 = false := by
  refine ⟨?_, fun _ => rfl, rfl, by decide, by decide⟩
  intro o t
  rw [Oof.tagged_nested_rev, taggedLoop_eq_any]
  cases ha : o.causes.reverse.any (matchesTag t) <;>
    cases hb : o.tagged t <;> simp [ha, hb]

/-- C5: forward iteration of the cause chain yields the linked sequence
exactly once each; reverse iteration (which first materializes the whole
singly-linked chain into a buffer) yields exactly its reverse; both
directions have equal length. For a concrete chain c1 to c2 to c3 the two
orders are [c1, c2, c3] and [c3, c2, c1]. -/
theorem chain_traversal_spec :
    (∀ e : DynError, e.collectFwd = e.chainList) ∧
    (∀ e : DynError, e.collectRev = e.chainList.reverse) ∧
    (∀ e : DynError, e.collectFwd.length = e.collectRev.length) ∧
    (∀ e : DynError, ((ChainState.new e).next_back).2 =
      ChainState.buffered e.chainList.dropLast) ∧
    (∀ m1 m2 m3 : String,
      (DynError.foreign m1 (.someSource (DynError.foreign m2
          (.someSource (DynError.foreign m3 .noSource))))).collectFwd =
        [DynError.foreign m1 (.someSource (DynError.foreign m2
            (.someSource (DynError.foreign m3 .noSource)))),
         DynError.foreign m2 (.someSource (DynError.foreign m3 .noSource)),
         DynError.foreign m3 .noSource] ∧
      (DynError.foreign m1 (.someSource (DynError.foreign m2
          (.someSource (DynError.foreign m3 .noSource))))).collectRev =
        [DynError.foreign m3 .noSource,
         DynError.foreign m2 (.someSource (DynError.foreign m3 .noSource)),
         DynError.foreign m1 (.someSource (DynError.foreign m2
            (.someSource (DynError.foreign m3 .noSource))))]) := by
  refine ⟨DynError.collectFwd_eq, DynError.collectRev_eq, ?_, fun e => rfl, ?_⟩
  · intro e
    rw [DynError.collectFwd_eq, DynError.collectRev_eq, List.length_reverse]
  · intro m1 m2 m3
    constructor
    · rw [DynError.collectFwd_eq]
      rfl
    · rw [DynError.collectRev_eq]
      rfl

/-- C6: flattening assigns each argument's aggregate index exactly once
from the single counter shared across the whole chain, receiver arguments
first and then each method's arguments in order, so the indices in
Parameters-section order are exactly 0, 1, ..., total-1: strictly
increasing and never reused. -/
theorem parameters_strictly_increasing (r : DeriveReceiver)
    (chain : List DeriveMethod) :
    renderedIndices r chain = List.range (totalIndices r chain) ∧
    List.Pairwise (· < ·) (renderedIndices r chain) ∧
    (renderedIndices r chain).Nodup := by
  have h1 := (flattenChain_eq chain (receiverNew r).2).1
  have h2 := (flattenChain_eq chain (receiverNew r).2).2
  have hmain : renderedIndices r chain = List.range (totalIndices r chain) := by
    rw [renderedIndices, totalIndices, receiverNew_eq, h1, h2,
      List.range_eq_range']
    have h3 : List.range' ((receiverNew r).2) (sumArgs chain) =
        List.range' (0 + (receiverNew r).2) (sumArgs chain) := by
      rw [Nat.zero_add]
    rw [h3, List.range'_append_1, Nat.add_comm]
  exact ⟨hmain, hmain ▸ List.pairwise_lt_range _, hmain ▸ List.nodup_range _⟩

/-- C7 (the code evaluated at the failing input): the Option impl of
`build_oof` attaches the closure's generated context exactly as the
closure produced it; nothing on the absence path sets the option-return
marker (the setters in `oofs/src/context.rs` have no callers), and the
attribute-generated closure builds the context with the marker false, so
an absence-derived failure for a call like `x.foo()` renders
`x.foo() failed` rather than ending with the option-return wording. -/
theorem option_build_renders_failed :
    (∀ (T : Type) (loc : Location) (f : Unit → OofGeneratedContext),
      buildOofOption (T := T) loc Option.none f =
        .error { source := Option.none, context := .generated (f ()),
                 tags := [], attachments := [], location := loc }) ∧
    demoGen.returns_option = false ∧
    Except.mapError (fun o => o.context.render)
        (buildOofOption (T := Nat) loc0 Option.none (fun _ => demoGen)) =
      .error "x.foo() failed" := by
  exact ⟨fun T loc f => rfl, rfl, rfl⟩

end Oofs
